import Mathlib

/-!
Verification of the `noether` abstract-algebra capability hierarchy
(`src/lib.rs`).  The crate is a compile-time taxonomy of Rust traits:
marker traits asserting algebraic laws, operator-closure traits wrapping
the std `ops` traits, and composite structure traits whose bodies are
empty and whose whole content is their supertrait bound list.

The shallow embedding has two layers:

* a transcription of the trait graph: every trait declared in `lib.rs`
  (and every external std / num_traits trait appearing in a bound) is a
  constructor of `Tr`, and `directSupers` transcribes each
  `pub trait X: A + B + ...` line, method signatures and associated-type
  bounds are transcribed alongside;
* signature-level models of the pieces with actual content: the
  `Sub` operator's unconstrained associated `Output` type, the
  `PartialOrd` comparison interface, and the Euclidean division and
  remainder functions behind the `Euclid` bound.

Rust conformance is nominal: a type conforms to a trait only if an
`impl` for it was declared and the type conforms to every supertrait,
except that a trait with a blanket impl (`Semiring`, `ClosedRemEuclid`)
is conferred automatically — and only automatically, since a second
overlapping impl would be rejected by coherence.
-/

namespace Noether

set_option maxRecDepth 1000000

/-- The traits of `lib.rs`, plus the external std / num_traits traits that
appear in their bound lists (suffixed `Op` / `Trait` to keep them apart). -/
inductive Tr
  -- structural marker traits (lines 8-21)
  | CommutativeAddition | CommutativeMultiplication
  | AssociativeAddition | AssociativeMultiplication
  | DistributiveAddition
  -- operator-closure traits (lines 23-103)
  | ClosedAdd | ClosedAddRef | ClosedSub | ClosedSubRef
  | ClosedMul | ClosedMulRef | ClosedDiv | ClosedDivRef
  | ClosedRem | ClosedRemRef | ClosedNeg | ClosedInv
  | ClosedAddAssign | ClosedAddAssignRef | ClosedSubAssign | ClosedSubAssignRef
  | ClosedMulAssign | ClosedMulAssignRef | ClosedDivAssign | ClosedDivAssignRef
  | ClosedRemAssign | ClosedRemAssignRef
  | ClosedZero | ClosedOne | ClosedDivEuclid | ClosedRemEuclid
  -- composite structure traits (lines 114-538)
  | Set | AdditiveMagma | MultiplicativeMagma
  | AdditiveSemigroup | MultiplicativeSemigroup
  | AdditiveMonoid | MultiplicativeMonoid
  | AdditiveGroup | MultiplicativeGroup
  | AdditiveAbelianGroup | MultiplicativeAbelianGroup
  | Semiring | Ring | CommutativeRing | IntegralDomain
  | UniqueFactorizationDomain | PrincipalIdealDomain | EuclideanDomain
  | Field | FiniteField | RealField | Polynomial
  | Module | VectorSpace | FieldExtension | FieldExtensionTower
  -- external: std marker / comparison traits
  | SizedTrait | CloneTrait | PartialEqTrait | PartialOrdTrait | OrdTrait
  -- external: std::ops operator traits
  | AddOp | SubOp | MulOp | DivOp | RemOp | NegOp | InvOp
  | AddAssignOp | SubAssignOp | MulAssignOp | DivAssignOp | RemAssignOp
  -- external: num_traits
  | ZeroTrait | OneTrait | EuclidTrait
  deriving DecidableEq

/-- Direct supertrait list of every trait, transcribed bound-for-bound from
`lib.rs`.  External traits are opaque leaves, with one exception kept for
reference: std's `Ord` (the total-order trait, `Ord: Eq + PartialOrd`,
modelled without `Eq`) — it is never required anywhere in `lib.rs`.
Note `AdditiveGroup` (line 255) bounds the bare std `Sub` and `SubAssign`,
not `ClosedSub` / `ClosedSubAssign`. -/
def directSupers : Tr → List Tr
  | .ClosedAdd => [.AddOp]
  | .ClosedAddRef => [.AddOp]
  | .ClosedSub => [.SubOp]
  | .ClosedSubRef => [.SubOp]
  | .ClosedMul => [.MulOp]
  | .ClosedMulRef => [.MulOp]
  | .ClosedDiv => [.DivOp]
  | .ClosedDivRef => [.DivOp]
  | .ClosedRem => [.RemOp]
  | .ClosedRemRef => [.RemOp]
  | .ClosedNeg => [.NegOp]
  | .ClosedInv => [.InvOp]
  | .ClosedAddAssign => [.AddAssignOp]
  | .ClosedAddAssignRef => [.AddAssignOp]
  | .ClosedSubAssign => [.SubAssignOp]
  | .ClosedSubAssignRef => [.SubAssignOp]
  | .ClosedMulAssign => [.MulAssignOp]
  | .ClosedMulAssignRef => [.MulAssignOp]
  | .ClosedDivAssign => [.DivAssignOp]
  | .ClosedDivAssignRef => [.DivAssignOp]
  | .ClosedRemAssign => [.RemAssignOp]
  | .ClosedRemAssignRef => [.RemAssignOp]
  | .ClosedZero => [.ZeroTrait]
  | .ClosedOne => [.OneTrait]
  | .ClosedDivEuclid => [.EuclidTrait]
  | .ClosedRemEuclid => []
  | .Set => [.SizedTrait, .CloneTrait, .PartialEqTrait]
  | .AdditiveMagma => [.Set, .ClosedAdd, .ClosedAddAssign]
  | .MultiplicativeMagma => [.Set, .ClosedMul, .ClosedMulAssign]
  | .AdditiveSemigroup => [.AdditiveMagma, .AssociativeAddition]
  | .MultiplicativeSemigroup => [.MultiplicativeMagma, .AssociativeMultiplication]
  | .AdditiveMonoid => [.AdditiveSemigroup, .ClosedZero]
  | .MultiplicativeMonoid => [.MultiplicativeSemigroup, .ClosedOne]
  | .AdditiveGroup => [.AdditiveMonoid, .ClosedNeg, .SubOp, .SubAssignOp]
  | .MultiplicativeGroup => [.MultiplicativeMonoid, .ClosedInv]
  | .AdditiveAbelianGroup => [.AdditiveGroup, .CommutativeAddition]
  | .MultiplicativeAbelianGroup => [.MultiplicativeGroup, .CommutativeMultiplication]
  | .Semiring =>
      [.AdditiveMonoid, .CommutativeAddition, .MultiplicativeMonoid, .DistributiveAddition]
  | .Ring => [.AdditiveAbelianGroup, .MultiplicativeMonoid, .DistributiveAddition]
  | .CommutativeRing => [.Ring, .CommutativeMultiplication]
  | .IntegralDomain => [.Ring]
  | .UniqueFactorizationDomain => [.IntegralDomain]
  | .PrincipalIdealDomain => [.UniqueFactorizationDomain]
  | .EuclideanDomain => [.PrincipalIdealDomain, .EuclidTrait]
  | .Field => [.EuclideanDomain, .ClosedDiv, .ClosedDivAssign]
  | .FiniteField => [.Field]
  | .RealField => [.Field, .PartialOrdTrait]
  | .Polynomial => [.CloneTrait, .PartialEqTrait, .ClosedAdd, .ClosedMul, .EuclidTrait]
  | .Module => [.MultiplicativeAbelianGroup]
  | .VectorSpace => [.AdditiveAbelianGroup]
  | .FieldExtension => [.Field, .VectorSpace]
  | .FieldExtensionTower => [.FieldExtension]
  | .OrdTrait => [.PartialOrdTrait]
  | _ => []

/-- A fixed numbering of the traits, used to represent trait sets as bitmasks. -/
def idx : Tr → Nat
  | .CommutativeAddition => 0
  | .CommutativeMultiplication => 1
  | .AssociativeAddition => 2
  | .AssociativeMultiplication => 3
  | .DistributiveAddition => 4
  | .ClosedAdd => 5
  | .ClosedAddRef => 6
  | .ClosedSub => 7
  | .ClosedSubRef => 8
  | .ClosedMul => 9
  | .ClosedMulRef => 10
  | .ClosedDiv => 11
  | .ClosedDivRef => 12
  | .ClosedRem => 13
  | .ClosedRemRef => 14
  | .ClosedNeg => 15
  | .ClosedInv => 16
  | .ClosedAddAssign => 17
  | .ClosedAddAssignRef => 18
  | .ClosedSubAssign => 19
  | .ClosedSubAssignRef => 20
  | .ClosedMulAssign => 21
  | .ClosedMulAssignRef => 22
  | .ClosedDivAssign => 23
  | .ClosedDivAssignRef => 24
  | .ClosedRemAssign => 25
  | .ClosedRemAssignRef => 26
  | .ClosedZero => 27
  | .ClosedOne => 28
  | .ClosedDivEuclid => 29
  | .ClosedRemEuclid => 30
  | .Set => 31
  | .AdditiveMagma => 32
  | .MultiplicativeMagma => 33
  | .AdditiveSemigroup => 34
  | .MultiplicativeSemigroup => 35
  | .AdditiveMonoid => 36
  | .MultiplicativeMonoid => 37
  | .AdditiveGroup => 38
  | .MultiplicativeGroup => 39
  | .AdditiveAbelianGroup => 40
  | .MultiplicativeAbelianGroup => 41
  | .Semiring => 42
  | .Ring => 43
  | .CommutativeRing => 44
  | .IntegralDomain => 45
  | .UniqueFactorizationDomain => 46
  | .PrincipalIdealDomain => 47
  | .EuclideanDomain => 48
  | .Field => 49
  | .FiniteField => 50
  | .RealField => 51
  | .Polynomial => 52
  | .Module => 53
  | .VectorSpace => 54
  | .FieldExtension => 55
  | .FieldExtensionTower => 56
  | .SizedTrait => 57
  | .CloneTrait => 58
  | .PartialEqTrait => 59
  | .PartialOrdTrait => 60
  | .OrdTrait => 61
  | .AddOp => 62
  | .SubOp => 63
  | .MulOp => 64
  | .DivOp => 65
  | .RemOp => 66
  | .NegOp => 67
  | .InvOp => 68
  | .AddAssignOp => 69
  | .SubAssignOp => 70
  | .MulAssignOp => 71
  | .DivAssignOp => 72
  | .RemAssignOp => 73
  | .ZeroTrait => 74
  | .OneTrait => 75
  | .EuclidTrait => 76

set_option maxHeartbeats 1000000 in
/-- Every trait of the model, in `idx` order. -/
def allTraits : List Tr :=
  [.CommutativeAddition, .CommutativeMultiplication, .AssociativeAddition,
   .AssociativeMultiplication, .DistributiveAddition,
   .ClosedAdd, .ClosedAddRef, .ClosedSub, .ClosedSubRef, .ClosedMul, .ClosedMulRef,
   .ClosedDiv, .ClosedDivRef, .ClosedRem, .ClosedRemRef, .ClosedNeg, .ClosedInv,
   .ClosedAddAssign, .ClosedAddAssignRef, .ClosedSubAssign, .ClosedSubAssignRef,
   .ClosedMulAssign, .ClosedMulAssignRef, .ClosedDivAssign, .ClosedDivAssignRef,
   .ClosedRemAssign, .ClosedRemAssignRef, .ClosedZero, .ClosedOne,
   .ClosedDivEuclid, .ClosedRemEuclid,
   .Set, .AdditiveMagma, .MultiplicativeMagma, .AdditiveSemigroup,
   .MultiplicativeSemigroup, .AdditiveMonoid, .MultiplicativeMonoid,
   .AdditiveGroup, .MultiplicativeGroup, .AdditiveAbelianGroup,
   .MultiplicativeAbelianGroup, .Semiring, .Ring, .CommutativeRing,
   .IntegralDomain, .UniqueFactorizationDomain, .PrincipalIdealDomain,
   .EuclideanDomain, .Field, .FiniteField, .RealField, .Polynomial,
   .Module, .VectorSpace, .FieldExtension, .FieldExtensionTower,
   .SizedTrait, .CloneTrait, .PartialEqTrait, .PartialOrdTrait, .OrdTrait,
   .AddOp, .SubOp, .MulOp, .DivOp, .RemOp, .NegOp, .InvOp,
   .AddAssignOp, .SubAssignOp, .MulAssignOp, .DivAssignOp, .RemAssignOp,
   .ZeroTrait, .OneTrait, .EuclidTrait]

/-- The singleton trait set `{t}`, as a bitmask. -/
def mask (t : Tr) : Nat := 2 ^ idx t

/-- The direct supertrait set of `t`, as a bitmask. -/
def supersMask (t : Tr) : Nat := (directSupers t).foldl (fun m s => m ||| mask s) 0

/-- One closure step on a trait set: add the direct supertraits of every
trait in the set. -/
def stepMask (m : Nat) : Nat :=
  allTraits.foldl (fun acc t => if m.testBit (idx t) then acc ||| supersMask t else acc) m

/-- The transitive-reflexive supertrait closure of a trait, as a bitmask:
everything a type conforming to `t` must also conform to.  The longest
requirement chain in the graph has 14 edges, so 16 steps reach the
fixed point. -/
def closureMask (t : Tr) : Nat := stepMask^[16] (mask t)

/-- `u` is in the transitive-reflexive supertrait closure of `t`. -/
def inClosure (t u : Tr) : Bool := (closureMask t).testBit (idx u)

/-- `m1 ⊆ m2` on bitmask-represented trait sets. -/
def subsetOf (m1 m2 : Nat) : Bool := m1 &&& m2 == m1

/-- The two blanket impls of `lib.rs`, with their `where` bounds:
`impl<T> Semiring for T where T: AdditiveMonoid + CommutativeAddition +
MultiplicativeMonoid + DistributiveAddition` (lines 324-327) and
`impl<T> ClosedRemEuclid for T where T: Euclid` (lines 105-112).
Every other trait has no impl in the crate. -/
def blanketRequires : Tr → Option (List Tr)
  | .Semiring =>
      some [.AdditiveMonoid, .CommutativeAddition, .MultiplicativeMonoid, .DistributiveAddition]
  | .ClosedRemEuclid => some [.EuclidTrait]
  | _ => none

/-- A downstream type is conformant to every trait in its supertrait closure
exactly when an impl is declared for each (Rust conformance is nominal);
`decl` is the set of traits the type declares impls of, as a bitmask. -/
def inClosureAll (decl : Nat) (t : Tr) : Bool := subsetOf (closureMask t) decl

/-- Whether a type whose declared impl set is `decl` conforms to trait `t`.
A trait with a blanket impl is conferred exactly when the blanket bounds
are conformed to — and only that way, since a second overlapping impl
would be rejected by Rust's coherence rules.  (No blanket-implemented
trait occurs in any supertrait list, and the blanket bounds are
themselves blanket-free, so the bounds reduce to closure checks.) -/
def satisfied (decl : Nat) (t : Tr) : Bool :=
  match blanketRequires t with
  | some reqs => reqs.all (inClosureAll decl)
  | none => inClosureAll decl t

/-- Return type of a trait method: `Self`, or Rust's `u64`. -/
inductive RetTy
  | selfTy | u64
  deriving DecidableEq

/-- The functions declared by each trait of `lib.rs` (name, return type).
Only three traits declare any: `ClosedDivEuclid` (line 97), the blanket
target `ClosedRemEuclid` (line 102), and `FiniteField` (lines 449, 455). -/
def methods : Tr → List (String × RetTy)
  | .ClosedDivEuclid => [("div_euclid", .selfTy)]
  | .ClosedRemEuclid => [("rem_euclid", .selfTy)]
  | .FiniteField => [("characteristic", .u64), ("order", .u64)]
  | _ => []

/-- Associated type slots and their trait bounds: `Module::Scalar: Ring`
(line 495), `VectorSpace::Scalar: Field` (line 512),
`FieldExtension::BaseField: Field` (line 525). -/
def assocTypes : Tr → List (String × Tr)
  | .Module => [("Scalar", .Ring)]
  | .VectorSpace => [("Scalar", .Field)]
  | .FieldExtension => [("BaseField", .Field)]
  | _ => []

/-- Associated-type equality constraints in supertrait bounds: the one in
the crate is `FieldExtension: ... + VectorSpace<Scalar = Self::BaseField>`
(line 524), recorded as (supertrait, its slot, own slot it must equal). -/
def assocEqConstraints : Tr → List (Tr × String × String)
  | .FieldExtension => [(.VectorSpace, "Scalar", "BaseField")]
  | _ => []

/-- The operator a primitive operation capability wraps. -/
inductive OpName
  | add | sub | mul | div | rem | neg | inv
  | addAssign | subAssign | mulAssign | divAssign | remAssign
  | divEuclid | remEuclid
  deriving DecidableEq

/-- Right-hand-side style of a primitive operation capability: value RHS,
reference RHS, or a unary operation with no RHS at all. -/
inductive RhsKind
  | value | ref | unary
  deriving DecidableEq

/-- One primitive operation capability declaration. -/
structure PrimDecl where
  tr : Tr
  op : OpName
  rhs : RhsKind
  deriving DecidableEq

/-- The primitive operation capability declarations of `lib.rs`
(lines 23-112), one entry per `Closed*` operator wrapper, in source
order.  `ClosedNeg` and `ClosedInv` wrap the unary `Neg` / `Inv`
operators; `ClosedDivEuclid`/`ClosedRemEuclid` declare functions taking
`rhs: Self` by value.  (`ClosedZero`/`ClosedOne`, lines 89-93, wrap
identity values, not operators, and are not listed.) -/
def primitiveDecls : List PrimDecl :=
  [⟨.ClosedAdd, .add, .value⟩, ⟨.ClosedAddRef, .add, .ref⟩,
   ⟨.ClosedSub, .sub, .value⟩, ⟨.ClosedSubRef, .sub, .ref⟩,
   ⟨.ClosedMul, .mul, .value⟩, ⟨.ClosedMulRef, .mul, .ref⟩,
   ⟨.ClosedDiv, .div, .value⟩, ⟨.ClosedDivRef, .div, .ref⟩,
   ⟨.ClosedRem, .rem, .value⟩, ⟨.ClosedRemRef, .rem, .ref⟩,
   ⟨.ClosedNeg, .neg, .unary⟩, ⟨.ClosedInv, .inv, .unary⟩,
   ⟨.ClosedAddAssign, .addAssign, .value⟩, ⟨.ClosedAddAssignRef, .addAssign, .ref⟩,
   ⟨.ClosedSubAssign, .subAssign, .value⟩, ⟨.ClosedSubAssignRef, .subAssign, .ref⟩,
   ⟨.ClosedMulAssign, .mulAssign, .value⟩, ⟨.ClosedMulAssignRef, .mulAssign, .ref⟩,
   ⟨.ClosedDivAssign, .divAssign, .value⟩, ⟨.ClosedDivAssignRef, .divAssign, .ref⟩,
   ⟨.ClosedRemAssign, .remAssign, .value⟩, ⟨.ClosedRemAssignRef, .remAssign, .ref⟩,
   ⟨.ClosedDivEuclid, .divEuclid, .value⟩, ⟨.ClosedRemEuclid, .remEuclid, .value⟩]

/-- The composite traits of the main algebraic lattice, `AdditiveMagma`
and `MultiplicativeMagma` upward (`Polynomial`, a standalone capability,
is not part of it). -/
def mainLattice : List Tr :=
  [.AdditiveMagma, .MultiplicativeMagma, .AdditiveSemigroup, .MultiplicativeSemigroup,
   .AdditiveMonoid, .MultiplicativeMonoid, .AdditiveGroup, .MultiplicativeGroup,
   .AdditiveAbelianGroup, .MultiplicativeAbelianGroup, .Semiring, .Ring,
   .CommutativeRing, .IntegralDomain, .UniqueFactorizationDomain,
   .PrincipalIdealDomain, .EuclideanDomain, .Field, .FiniteField, .RealField,
   .Module, .VectorSpace, .FieldExtension, .FieldExtensionTower]

/-- A (possibly non-closed) implementation of the std `Sub` operator for a
type `T`: `trait Sub<Rhs = Self> { type Output; fn sub(self, rhs: Rhs) ->
Self::Output; }`.  The associated `Output` type is unconstrained; the
crate's `ClosedSub` (line 30) is the refinement `Sub<Rhs, Output = Self>`,
i.e. the implementations with `Out = T`. -/
structure SubOpImpl (T : Type) : Type 1 where
  Out : Type
  sub : T → T → Out

/-- An implementation of `Sub` for a type whose subtraction does not
return `Self`: it satisfies the bare `Sub` bound that `AdditiveGroup`
(line 255) demands, but not `ClosedSub`. -/
def subOpWeird : SubOpImpl Bool := ⟨Unit, fun _ _ => ()⟩

/-- The comparison interface of std's `PartialOrd`:
`fn partial_cmp(&self, other: &Self) -> Option<Ordering>` — two elements
may compare to `None` (be incomparable), as `f64`'s NaN does. -/
structure PartialOrdImpl (T : Type) where
  cmpOpt : T → T → Option Ordering

/-- An `f64`-like model: values are rationals plus a NaN (`none`);
comparison is `None` whenever NaN is involved, exactly as for `f64`,
which satisfies every bound `RealField` (line 471) places on a type. -/
def floatLikePO : PartialOrdImpl (Option ℚ) :=
  ⟨fun a b =>
    match a, b with
    | some x, some y => some (compare x y)
    | _, _ => none⟩

/-- The interface of num_traits' `Euclid`:
`fn div_euclid(&self, v: &Self) -> Self` and
`fn rem_euclid(&self, v: &Self) -> Self` (references erased). -/
structure EuclidImpl (T : Type) where
  div_euclid : T → T → T
  rem_euclid : T → T → T

/-- The blanket impl of `ClosedRemEuclid` (lines 105-112): for any
`T: Euclid`, `fn rem_euclid(self, rhs: Self) -> Self` is
`Euclid::rem_euclid(&self, &rhs)`. -/
def closedRemEuclidImpl {T : Type} (e : EuclidImpl T) (a b : T) : T :=
  e.rem_euclid a b

/-- Modelled from the spec: the Euclidean division behind the
`ClosedDivEuclid` / `Euclid` capability for a conforming integer type.
The repository only declares the capability; the implementation lives in
num_traits / std, so it is modelled here as the floor-based Euclidean
division of Rust's `i64::div_euclid` (`q = a / b`, truncated, corrected
by one when the truncated remainder is negative), on unbounded integers. -/
def rustDivEuclid (a b : Int) : Int :=
  if Int.tmod a b < 0 then
    if 0 < b then Int.tdiv a b - 1 else Int.tdiv a b + 1
  else Int.tdiv a b

/-- Modelled from the spec: the Euclidean remainder behind the
`ClosedRemEuclid` / `Euclid` capability for a conforming integer type,
as Rust's `i64::rem_euclid` (the truncated remainder `a % b`, shifted by
`|b|` when negative), on unbounded integers. -/
def rustRemEuclid (a b : Int) : Int :=
  if Int.tmod a b < 0 then
    if b < 0 then Int.tmod a b - b else Int.tmod a b + b
  else Int.tmod a b

/-- The `Euclid` implementation of a conforming integer type. -/
def intEuclid : EuclidImpl Int := ⟨rustDivEuclid, rustRemEuclid⟩

/-- The truncated remainder is strictly greater than `-b` when `b` is
positive. -/
theorem tmod_gt_neg (a : Int) {b : Int} (hb : 0 < b) : -b < Int.tmod a b := by
  rcases a with m | m
  · have hm : (0 : Int) ≤ Int.ofNat m := by rw [Int.ofNat_eq_coe]; omega
    have h : 0 ≤ Int.tmod (Int.ofNat m) b := Int.tmod_nonneg b hm
    omega
  · rcases b with n | n
    · rw [show Int.tmod (Int.negSucc m) (Int.ofNat n) = -Int.ofNat (Nat.succ m % n) from rfl]
      simp only [Int.ofNat_eq_coe] at hb ⊢
      have hn : 0 < n := by omega
      have hmod : Nat.succ m % n < n := Nat.mod_lt _ hn
      omega
    · exact absurd hb (Int.negSucc_lt_zero n).asymm

/-- C1: the hierarchy does not chain `CommutativeRing` below
`IntegralDomain`: `IntegralDomain`'s bound is `Ring` only (line 376), so a
type may conform to `IntegralDomain` — here one declaring impls of exactly
`IntegralDomain`'s requirement closure — without the
commutative-multiplication marker or `CommutativeRing`, contradicting the
trait's own doc comment ("(D, +, ·) is a commutative ring"). -/
theorem c1_integral_domain_not_below_commutative_ring :
    inClosure Tr.IntegralDomain Tr.Ring = true ∧
    inClosure Tr.IntegralDomain Tr.CommutativeRing = false ∧
    inClosure Tr.IntegralDomain Tr.CommutativeMultiplication = false ∧
    satisfied (closureMask Tr.IntegralDomain) Tr.IntegralDomain = true ∧
    satisfied (closureMask Tr.IntegralDomain) Tr.CommutativeRing = false := by
  refine ⟨by decide, by decide, by decide, by decide, by decide⟩

/-- C2: `Semiring` is blanket-derived: its required set is exactly
`AdditiveMonoid + CommutativeAddition + MultiplicativeMonoid +
DistributiveAddition`, the blanket impl's bounds are that same set, and a
type conforms to `Semiring` if and only if it conforms to the four —
whether or not `Semiring` itself is in its declared impl set. -/
theorem c2_semiring_blanket_derivation :
    directSupers Tr.Semiring =
      [Tr.AdditiveMonoid, Tr.CommutativeAddition, Tr.MultiplicativeMonoid,
       Tr.DistributiveAddition] ∧
    blanketRequires Tr.Semiring =
      some [Tr.AdditiveMonoid, Tr.CommutativeAddition, Tr.MultiplicativeMonoid,
            Tr.DistributiveAddition] ∧
    ∀ decl : Nat,
      satisfied decl Tr.Semiring =
        (satisfied decl Tr.AdditiveMonoid && satisfied decl Tr.CommutativeAddition &&
         satisfied decl Tr.MultiplicativeMonoid && satisfied decl Tr.DistributiveAddition) := by
  refine ⟨rfl, rfl, fun decl => ?_⟩
  show ([Tr.AdditiveMonoid, Tr.CommutativeAddition, Tr.MultiplicativeMonoid,
         Tr.DistributiveAddition].all (inClosureAll decl)) = _
  show _ = (inClosureAll decl Tr.AdditiveMonoid && inClosureAll decl Tr.CommutativeAddition &&
            inClosureAll decl Tr.MultiplicativeMonoid && inClosureAll decl Tr.DistributiveAddition)
  simp only [List.all_cons, List.all_nil, Bool.and_true, Bool.and_assoc]

/-- C3: `AdditiveGroup` (line 255) bounds the bare std `Sub` and
`SubAssign`, not `ClosedSub`/`ClosedSubAssign`; since `Sub::Output` is an
unconstrained associated type, a conforming type's subtraction need not
produce `Self` — `subOpWeird` satisfies the `Sub` bound demanded of an
`AdditiveGroup` with `Output = Unit ≠ Self`. -/
theorem c3_additive_group_sub_output_unconstrained :
    inClosure Tr.AdditiveGroup Tr.SubOp = true ∧
    inClosure Tr.AdditiveGroup Tr.SubAssignOp = true ∧
    inClosure Tr.AdditiveGroup Tr.ClosedSub = false ∧
    inClosure Tr.AdditiveGroup Tr.ClosedSubAssign = false ∧
    subOpWeird.Out ≠ Bool := by
  refine ⟨by decide, by decide, by decide, by decide, fun h => ?_⟩
  have h2 : Unit = Bool := h
  have hc := Fintype.card_congr (Equiv.cast h2)
  simp at hc

/-- C4: `RealField` (line 471) requires `Field` plus std's `PartialOrd`
only; the total-order capability (std's `Ord`) is nowhere in its
requirement closure, and a `PartialOrd` implementation may leave pairs
incomparable, as the `f64`-style model does on its NaN value —
contradicting the trait's own doc comment ("a total order relation ≤"). -/
theorem c4_real_field_requires_only_partial_order :
    inClosure Tr.RealField Tr.Field = true ∧
    inClosure Tr.RealField Tr.PartialOrdTrait = true ∧
    inClosure Tr.RealField Tr.OrdTrait = false ∧
    floatLikePO.cmpOpt none none = none :=
  ⟨by decide, by decide, by decide, rfl⟩

/-- C5 counterexample: negation and inversion have no
reference-right-hand-side primitive capability variant — each is declared
exactly once, as a unary operator wrapper. -/
theorem c5_no_ref_variant_for_unary_ops :
    (primitiveDecls.any (fun d => d.op == OpName.neg)) = true ∧
    (primitiveDecls.any (fun d => d.op == OpName.inv)) = true ∧
    (primitiveDecls.any (fun d => d.op == OpName.neg && d.rhs == RhsKind.ref)) = false ∧
    (primitiveDecls.any (fun d => d.op == OpName.inv && d.rhs == RhsKind.ref)) = false := by
  decide

/-- C5 (amended): each of add, subtract, multiply, divide, remainder and
their assignment counterparts has exactly two primitive capability
variants (value RHS and reference RHS); negation and inversion are unary
and have exactly one variant each, with no reference or assignment form. -/
theorem c5_two_variants_for_binary_ops :
    ([OpName.add, OpName.sub, OpName.mul, OpName.div, OpName.rem,
      OpName.addAssign, OpName.subAssign, OpName.mulAssign, OpName.divAssign,
      OpName.remAssign].all (fun op =>
        ((primitiveDecls.filter (fun d => d.op == op && d.rhs == RhsKind.value)).length == 1) &&
        ((primitiveDecls.filter (fun d => d.op == op && d.rhs == RhsKind.ref)).length == 1)))
      = true ∧
    primitiveDecls.filter (fun d => d.op == OpName.neg) =
      [⟨Tr.ClosedNeg, OpName.neg, RhsKind.unary⟩] ∧
    primitiveDecls.filter (fun d => d.op == OpName.inv) =
      [⟨Tr.ClosedInv, OpName.inv, RhsKind.unary⟩] := by
  decide

/-- C6: for every nonzero `b`, the modelled Euclidean division and
remainder of the `Euclid` capability satisfy
`a = b * div_euclid(a, b) + rem_euclid(a, b)` and
`0 ≤ rem_euclid(a, b) < |b|`. -/
theorem c6_euclidean_division_identity (a b : Int) (hb : b ≠ 0) :
    a = b * rustDivEuclid a b + rustRemEuclid a b ∧
    0 ≤ rustRemEuclid a b ∧ rustRemEuclid a b < |b| := by
  have h := Int.tmod_add_tdiv a b
  rcases lt_or_gt_of_ne hb with hneg | hpos
  · have habs : |b| = -b := abs_of_neg hneg
    have hub : Int.tmod a b < -b := by
      have h1 := Int.tmod_lt_of_pos a (b := -b) (by omega)
      rwa [Int.tmod_neg] at h1
    have hlb : b < Int.tmod a b := by
      have h1 := tmod_gt_neg a (b := -b) (by omega)
      rw [Int.tmod_neg] at h1
      omega
    rw [habs]
    unfold rustDivEuclid rustRemEuclid
    split_ifs <;> exact ⟨by linarith, by linarith, by linarith⟩
  · have habs : |b| = b := abs_of_pos hpos
    have hub : Int.tmod a b < b := Int.tmod_lt_of_pos a hpos
    have hlb : -b < Int.tmod a b := tmod_gt_neg a hpos
    rw [habs]
    unfold rustDivEuclid rustRemEuclid
    split_ifs <;> exact ⟨by linarith, by linarith, by linarith⟩

/-- Witness for C6 at `a = -7`, `b = 3` (division result `-3`,
remainder `2`). -/
theorem c6_euclidean_division_identity_witness :
    (-7 : Int) = 3 * rustDivEuclid (-7) 3 + rustRemEuclid (-7) 3 ∧
    0 ≤ rustRemEuclid (-7) 3 ∧ rustRemEuclid (-7) 3 < |(3 : Int)| :=
  c6_euclidean_division_identity (-7) 3 (by decide)

/-- C7: `FieldExtension` (lines 524-526) requires `Field` and
`VectorSpace`, constrains the `VectorSpace` supertrait's `Scalar` to equal
its own associated `BaseField`, and bounds `BaseField` by `Field`
(`VectorSpace`'s own `Scalar` slot is likewise `Field`-bounded). -/
theorem c7_field_extension_structure :
    directSupers Tr.FieldExtension = [Tr.Field, Tr.VectorSpace] ∧
    inClosure Tr.FieldExtension Tr.Field = true ∧
    inClosure Tr.FieldExtension Tr.VectorSpace = true ∧
    assocEqConstraints Tr.FieldExtension = [(Tr.VectorSpace, "Scalar", "BaseField")] ∧
    assocTypes Tr.FieldExtension = [("BaseField", Tr.Field)] ∧
    assocTypes Tr.VectorSpace = [("Scalar", Tr.Field)] :=
  ⟨rfl, by decide, by decide, rfl, rfl, rfl⟩

/-- C8: `FiniteField` (lines 444-456) requires exactly `Field` and
declares exactly the two queries `characteristic` and `order`, both
returning `u64`; no other trait in the hierarchy declares a function
returning `u64`. -/
theorem c8_finite_field_queries :
    directSupers Tr.FiniteField = [Tr.Field] ∧
    methods Tr.FiniteField = [("characteristic", RetTy.u64), ("order", RetTy.u64)] ∧
    (allTraits.all (fun t =>
      t == Tr.FiniteField || (methods t).all (fun m => !(m.2 == RetTy.u64)))) = true := by
  refine ⟨rfl, rfl, by decide⟩

/-- C9: every composite capability of the main lattice, `AdditiveMagma`
and `MultiplicativeMagma` upward through `FieldExtensionTower`,
transitively requires `Set` (line 139) and hence `Sized`, `Clone` and
`PartialEq`. -/
theorem c9_main_lattice_requires_set :
    (mainLattice.all (fun t =>
      inClosure t Tr.Set && inClosure t Tr.SizedTrait &&
      inClosure t Tr.CloneTrait && inClosure t Tr.PartialEqTrait)) = true := by
  decide

/-- C10: `ClosedRemEuclid` is blanket-implemented for every `Euclid` type
(and nothing else), and the value-consuming `rem_euclid(self, rhs)` it
provides is exactly `Euclid::rem_euclid(&self, &rhs)` — for every
implementation, in particular the integer one. -/
theorem c10_closed_rem_euclid_blanket_agrees :
    blanketRequires Tr.ClosedRemEuclid = some [Tr.EuclidTrait] ∧
    (∀ (T : Type) (e : EuclidImpl T) (a b : T),
      closedRemEuclidImpl e a b = e.rem_euclid a b) ∧
    (∀ a b : Int, closedRemEuclidImpl intEuclid a b = rustRemEuclid a b) :=
  ⟨rfl, fun _ _ _ _ => rfl, fun _ _ => rfl⟩

end Noether
